import Mathlib

/-!
Shallow embedding of the FixOnce error-capture pipeline:
the privacy sanitizer and capture interceptor of extension/logger.js
(the "MAIN world" logger), the minimal injected.js console override,
the batching queue of extension/background.js, and the whitelist
admission policy of extension/popup.js.

Strings are modelled as `List Char`; the JS regexes of `sanitize` are
embedded as executable leftmost/greedy scanners over character lists.
-/

namespace FixOnce

/-! ## Character classes of the sanitizer regexes (logger.js `sanitize`) -/

/-- `[a-z]` or `[A-Z]` of a JS regex (ASCII letters). -/
def isRegexLetter (c : Char) : Bool :=
  ('a' ≤ c && c ≤ 'z') || ('A' ≤ c && c ≤ 'Z')

/-- `[0-9]` / `\d` of a JS regex. -/
def isRegexDigit (c : Char) : Bool := '0' ≤ c && c ≤ '9'

/-- `[a-zA-Z0-9]`. -/
def isRegexAlnum (c : Char) : Bool := isRegexLetter c || isRegexDigit c

/-- `\w` of a JS regex: `[A-Za-z0-9_]`. -/
def isWordChar (c : Char) : Bool := isRegexAlnum c || c == '_'

/-- `\s` of a JS regex (the ECMAScript WhiteSpace and LineTerminator sets). -/
def isJsSpace (c : Char) : Bool :=
  c == '\t' || c == '\n' || c == '\x0b' || c == '\x0c' || c == '\r' || c == ' ' ||
  c == '\u00A0' || c == '\u1680' ||
  c == '\u2000' || c == '\u2001' || c == '\u2002' || c == '\u2003' ||
  c == '\u2004' || c == '\u2005' || c == '\u2006' || c == '\u2007' ||
  c == '\u2008' || c == '\u2009' || c == '\u200A' ||
  c == '\u2028' || c == '\u2029' || c == '\u202F' || c == '\u205F' ||
  c == '\u3000' || c == '\uFEFF'

/-- Local-part class of the email regex: `[a-zA-Z0-9._%+-]`. -/
def isEmailLocalChar (c : Char) : Bool :=
  isRegexAlnum c || c == '.' || c == '_' || c == '%' || c == '+' || c == '-'

/-- Domain class of the email regex: `[a-zA-Z0-9.-]`. -/
def isEmailDomainChar (c : Char) : Bool :=
  isRegexAlnum c || c == '.' || c == '-'

/-- Token class of the bearer regex: `[a-zA-Z0-9\-\._~+/]`. -/
def isBearerTokenChar (c : Char) : Bool :=
  isRegexAlnum c || c == '-' || c == '.' || c == '_' || c == '~' || c == '+' || c == '/'

/-- Separator class of the password regex: `["\s:=]`. -/
def isPwSepChar (c : Char) : Bool :=
  c == '"' || isJsSpace c || c == ':' || c == '='

/-- Value class of the password regex: `[^"\s&,}]`. -/
def isPwValChar (c : Char) : Bool :=
  !(c == '"' || isJsSpace c || c == '&' || c == ',' || c == '\x7d')

/-- Class of the API-key and JWT regexes: `[a-zA-Z0-9_-]`. -/
def isApiChar (c : Char) : Bool :=
  isRegexAlnum c || c == '_' || c == '-'

/-- Word-char test on an optional character (`none` = outside the string). -/
def isWordOpt : Option Char → Bool
  | some c => isWordChar c
  | none => false

/-- JS word boundary `\b` between two (optional) neighbouring characters. -/
def boundaryB (a b : Option Char) : Bool := isWordOpt a != isWordOpt b

/-! ## Generic global-replace scanner

`String.prototype.replace` with a `/g` regex: scan left to right; at the
leftmost position where the regex matches, replace the (greedy) match with
the token and resume after it.  The matcher receives the character
preceding the current position (for `\b`) and the current suffix, and
returns the length of the greedy match starting exactly there, if any. -/

def replaceScanF (ml : Option Char → List Char → Option Nat) (token : List Char) :
    Nat → Option Char → List Char → List Char
  | _, _, [] => []
  | 0, _, s => s
  | fuel + 1, prev, c :: rest =>
    match ml prev (c :: rest) with
    | some L =>
      token ++ replaceScanF ml token fuel (((c :: rest).take L).getLast?) (rest.drop (L - 1))
    | none => c :: replaceScanF ml token fuel (some c) rest

/-- Global replace: the fuel `s.length` always suffices, since every step
consumes at least one character. -/
def replaceScan (ml : Option Char → List Char → Option Nat) (token : List Char)
    (prev : Option Char) (s : List Char) : List Char :=
  replaceScanF ml token s.length prev s

/-! ## Pass 1: email addresses, `/[a-zA-Z0-9._%+-]+@[a-zA-Z0-9.-]+\.[a-zA-Z]{2,}/g` -/

/-- Length of the maximal `[a-zA-Z]` run at the head of the list. -/
def letterRunLen (s : List Char) : Nat := (s.takeWhile isRegexLetter).length

/-- Backtracking search for `\.[a-zA-Z]{2,}` inside the greedy domain run:
try the dot position from `k` downwards (largest first, as the greedy
`[a-zA-Z0-9.-]+` gives back characters one at a time); a position `d`
succeeds when `dom[d] = '.'` and at least two letters follow.  Returns the
number of characters of `dom` consumed by `[a-zA-Z0-9.-]+\.[a-zA-Z]{2,}`. -/
def emailDotSearch (dom : List Char) : Nat → Option Nat
  | 0 => none
  | k + 1 =>
    if dom[k + 1]? = some '.' && 2 ≤ letterRunLen (dom.drop (k + 2)) then
      some ((k + 1) + 1 + letterRunLen (dom.drop (k + 2)))
    else emailDotSearch dom k

/-- Length of the greedy email match starting at the head of `s`, if any. -/
def emailMatchLen (s : List Char) : Option Nat :=
  if (s.takeWhile isEmailLocalChar).length = 0 then none
  else
    match s.drop ((s.takeWhile isEmailLocalChar).length) with
    | [] => none
    | a :: rest =>
      if a = '@' then
        match emailDotSearch rest ((rest.takeWhile isEmailDomainChar).length - 1) with
        | some e => some ((s.takeWhile isEmailLocalChar).length + 1 + e)
        | none => none
      else none

def emailMl (_ : Option Char) (s : List Char) : Option Nat := emailMatchLen s

def emailPass (s : List Char) : List Char :=
  replaceScan emailMl "[EMAIL]".data none s

/-! ## Pass 2: bearer tokens, `/Bearer [a-zA-Z0-9\-\._~+/]+=*/g` -/

def bearerMl (_ : Option Char) (s : List Char) : Option Nat :=
  if s.take 7 = "Bearer ".data then
    if ((s.drop 7).takeWhile isBearerTokenChar).length = 0 then none
    else some (7 + ((s.drop 7).takeWhile isBearerTokenChar).length +
      (((s.drop 7).drop (((s.drop 7).takeWhile isBearerTokenChar).length)).takeWhile
        (fun c => c == '=')).length)
  else none

def bearerPass (s : List Char) : List Char :=
  replaceScan bearerMl "[TOKEN]".data none s

/-! ## Pass 3: passwords, `/password["\s:=]+[^"\s&,}]+/gi` -/

/-- Backtracking search for `["\s:=]+[^"\s&,}]+` after the literal
`password`: the greedy separator run gives characters back one at a time
until the value run is non-empty.  `k` is the candidate separator count
(tried from the maximal run length downwards); returns the total number of
characters consumed after `password`. -/
def pwSearch (rest : List Char) : Nat → Option Nat
  | 0 => none
  | k + 1 =>
    let v := ((rest.drop (k + 1)).takeWhile isPwValChar).length
    if v = 0 then pwSearch rest k else some ((k + 1) + v)

def pwMl (_ : Option Char) (s : List Char) : Option Nat :=
  if (s.take 8).map Char.toLower = "password".data then
    match pwSearch (s.drop 8) (((s.drop 8).takeWhile isPwSepChar).length) with
    | some n => some (8 + n)
    | none => none
  else none

def pwPass (s : List Char) : List Char :=
  replaceScan pwMl "password=[REDACTED]".data none s

/-! ## Pass 4: card numbers, `/\b\d{13,19}\b/g` -/

/-- Search for the match end of `\d{13,19}\b`: try `k` digits (from
`min run 19` downwards), requiring a word boundary after them and at least
13 digits. -/
def cardEndSearch (s : List Char) : Nat → Option Nat
  | 0 => none
  | k + 1 =>
    if k + 1 < 13 then none
    else if boundaryB s[k]? s[k + 1]? then some (k + 1)
    else cardEndSearch s k

def cardMl (prev : Option Char) (s : List Char) : Option Nat :=
  if (s.takeWhile isRegexDigit).length = 0 then none
  else if boundaryB prev s[0]? then
    cardEndSearch s (min ((s.takeWhile isRegexDigit).length) 19)
  else none

def cardPass (s : List Char) : List Char :=
  replaceScan cardMl "[CARD]".data none s

/-! ## Pass 5: API keys, `/\b(?=\S*[a-zA-Z])(?=\S*[0-9])[a-zA-Z0-9_-]{32,}\b/g` -/

/-- Search for the match end of `[a-zA-Z0-9_-]{32,}\b`: try `k` class
characters (greedy, from the maximal run length downwards), requiring a
word boundary after them and at least 32 characters. -/
def apiEndSearch (s : List Char) : Nat → Option Nat
  | 0 => none
  | k + 1 =>
    if k + 1 < 32 then none
    else if boundaryB s[k]? s[k + 1]? then some (k + 1)
    else apiEndSearch s k

def apiMl (prev : Option Char) (s : List Char) : Option Nat :=
  if boundaryB prev s[0]? && (s.takeWhile (fun c => !isJsSpace c)).any isRegexLetter &&
      (s.takeWhile (fun c => !isJsSpace c)).any isRegexDigit then
    apiEndSearch s ((s.takeWhile isApiChar).length)
  else none

def apiPass (s : List Char) : List Char :=
  replaceScan apiMl "[API_KEY]".data none s

/-! ## Pass 6: JWTs, `/eyJ[a-zA-Z0-9_-]*\.eyJ[a-zA-Z0-9_-]*\.[a-zA-Z0-9_-]*/g` -/

def jwtMl (_ : Option Char) (s : List Char) : Option Nat :=
  if s.take 3 = "eyJ".data then
    match (s.drop 3).drop (((s.drop 3).takeWhile isApiChar).length) with
    | [] => none
    | c1 :: r2 =>
      if c1 = '.' then
        if r2.take 3 = "eyJ".data then
          match (r2.drop 3).drop (((r2.drop 3).takeWhile isApiChar).length) with
          | [] => none
          | c2 :: r4 =>
            if c2 = '.' then
              some (3 + ((s.drop 3).takeWhile isApiChar).length + 1 +
                3 + ((r2.drop 3).takeWhile isApiChar).length + 1 +
                (r4.takeWhile isApiChar).length)
            else none
        else none
      else none
  else none

def jwtPass (s : List Char) : List Char :=
  replaceScan jwtMl "[JWT]".data none s

/-! ## The full sanitizer (logger.js `sanitize`, the six chained replaces) -/

def sanitizeL (s : List Char) : List Char :=
  jwtPass (apiPass (cardPass (pwPass (bearerPass (emailPass s)))))

def sanitize (s : String) : String := String.mk (sanitizeL s.data)

/-! ## Decidable "shape" tests used to state the sanitizer claims -/

/-- Does the list contain `pat` as a contiguous sub-list? -/
def containsSeq (pat : List Char) : List Char → Bool
  | [] => pat.isEmpty
  | c :: rest => pat.isPrefixOf (c :: rest) || containsSeq pat rest

/-- Does the list contain an email-shaped substring (a match of the
email regex at some position)? -/
def existsEmailMatch : List Char → Bool
  | [] => false
  | c :: rest => (emailMatchLen (c :: rest)).isSome || existsEmailMatch rest

/-- Does the list contain a 32+-character alphanumeric run holding at
least one letter and one digit? -/
def existsAlnumRun32 : List Char → Bool
  | [] => false
  | c :: rest =>
    (let r := (c :: rest).takeWhile isRegexAlnum
     (32 ≤ r.length && r.any isRegexLetter && r.any isRegexDigit)) || existsAlnumRun32 rest

/-! ## Batching queue (background.js)

State of the background service worker: the module-level variables
`errorQueue`, `isServerAvailable` and `flushTimer`, plus two bookkeeping
logs used to state the claims: `flushCalls` counts invocations of
`flushQueue`, and `posted` records each batch handed to `fetch`. -/

def BATCH_SIZE : Nat := 10

structure RelayState (R : Type) where
  errorQueue : List R
  isServerAvailable : Bool
  flushTimer : Bool
  flushCalls : Nat
  posted : List (List R)
deriving DecidableEq

/-- Module initialisation: `errorQueue = []`, `isServerAvailable = true`,
`flushTimer = null`. -/
def initState (R : Type) : RelayState R := ⟨[], true, false, 0, []⟩

/-- The synchronous part of `flushQueue` up to the `await fetch`: the
guard (`errorQueue.length === 0 || !isServerAvailable`) and the
`splice(0, errorQueue.length)` drain that hands the batch to `fetch`. -/
def flushQueueStep {R : Type} (s : RelayState R) : RelayState R :=
  if s.errorQueue.isEmpty || !s.isServerAvailable then
    { s with flushCalls := s.flushCalls + 1 }
  else
    { s with flushCalls := s.flushCalls + 1, errorQueue := [],
             posted := s.posted ++ [s.errorQueue] }

/-- `scheduleFlush`: arm the flush timer when none is armed. -/
def scheduleFlush {R : Type} (s : RelayState R) : RelayState R :=
  if s.flushTimer then s else { s with flushTimer := true }

/-- `queueError`: append, and either flush immediately (cancelling any
pending timer) on reaching `BATCH_SIZE`, or arm the timer. -/
def queueError {R : Type} (p : R) (s : RelayState R) : RelayState R :=
  if BATCH_SIZE ≤ (s.errorQueue ++ [p]).length then
    flushQueueStep { s with errorQueue := s.errorQueue ++ [p], flushTimer := false }
  else scheduleFlush { s with errorQueue := s.errorQueue ++ [p] }

def enqueueAll {R : Type} (ps : List R) (s : RelayState R) : RelayState R :=
  ps.foldl (fun st p => queueError p st) s

/-- A complete failed flush attempt: `flushQueue` runs its guard and
drain, the records `during` arrive through `queueError` while the fetch
is in flight, the fetch then fails (network error or `!response.ok`) and
the handler executes `errorQueue.unshift(...batch)`.  Nothing in either
failure path of the source touches `isServerAvailable`. -/
def failedFlushScenario {R : Type} (s : RelayState R) (during : List R) : RelayState R :=
  { enqueueAll during (flushQueueStep s) with
    errorQueue :=
      (if !s.errorQueue.isEmpty && s.isServerAvailable then s.errorQueue else []) ++
        (enqueueAll during (flushQueueStep s)).errorQueue }

inductive ProbeOutcome where
  | ok
  | notOk
  | threw
deriving DecidableEq

/-- `checkServer`: probe `/api/config`; `isServerAvailable = response.ok`,
and the catch handler sets it to `false`. -/
def checkServer {R : Type} (s : RelayState R) (probe : ProbeOutcome) : RelayState R :=
  match probe with
  | .ok => { s with isServerAvailable := true }
  | .notOk => { s with isServerAvailable := false }
  | .threw => { s with isServerAvailable := false }

/-! ## Admission policy (popup.js) -/

def devPorts : List String :=
  ["3000", "3001", "4200", "5000", "5173", "5174", "8000", "8080", "8888"]

/-- ECMAScript LineTerminator set (what regex `.` does not match). -/
def isLineTerminator (c : Char) : Bool :=
  c == '\n' || c == '\r' || c == '\u2028' || c == '\u2029'

def dotAny (c : Char) : Bool := !isLineTerminator c

/-- The anchored tail `(:\d+)?$`. -/
def portOptTail : List Char → Bool
  | [] => true
  | ':' :: ds => !ds.isEmpty && ds.all isRegexDigit
  | _ => false

/-- The anchored tail `.*(:\d+)?$`. -/
def tailDotAnyPort (r : List Char) : Bool :=
  (List.range (r.length + 1)).any fun j => (r.take j).all dotAny && portOptTail (r.drop j)

/-- `AUTO_ALLOWED_PATTERNS`: does the domain match one of the eight
anchored dev-environment regexes? -/
def matchAutoPattern (s : List Char) : Bool :=
  (s.take 9 == "localhost".data && portOptTail (s.drop 9)) ||
  (s.take 9 == "127.0.0.1".data && portOptTail (s.drop 9)) ||
  (s.take 7 == "0.0.0.0".data && portOptTail (s.drop 7)) ||
  ((List.range (s.length + 1)).any fun i =>
    (s.take i).all dotAny && (s.drop i).take 6 == ".local".data &&
      portOptTail (s.drop (i + 6))) ||
  ((List.range (s.length + 1)).any fun i =>
    (s.take i).all dotAny && (s.drop i).take 10 == ".localhost".data &&
      portOptTail (s.drop (i + 10))) ||
  (s.take 6 == "local.".data && tailDotAnyPort (s.drop 6)) ||
  (s.take 4 == "dev.".data && tailDotAnyPort (s.drop 4)) ||
  (s.take 8 == "staging.".data && tailDotAnyPort (s.drop 8))

/-- `domain.split(':')[1]`: the segment between the first and second
colon, `none` when the domain has no colon. -/
def splitColonPart1 (s : List Char) : Option (List Char) :=
  match s.dropWhile (fun c => c != ':') with
  | [] => none
  | _ :: rest => some (rest.takeWhile (fun c => c != ':'))

/-- popup.js `isAutoAllowed`: pattern match, then the dev-port check
(`port && DEV_PORTS.includes(port)`; an empty port string is falsy). -/
def isAutoAllowed (domain : String) : Bool :=
  matchAutoPattern domain.data ||
  (match splitColonPart1 domain.data with
   | some p => !p.isEmpty && devPorts.contains (String.mk p)
   | none => false)

structure Whitelists where
  permanent : List String
  session : List String
deriving DecidableEq

structure Decision where
  allowed : Bool
  reason : String
deriving DecidableEq

/-- popup.js `isDomainAllowed`: auto, then permanent whitelist, then
session whitelist, then blocked. -/
def isDomainAllowed (domain : String) (w : Whitelists) : Decision :=
  if isAutoAllowed domain then ⟨true, "auto"⟩
  else if w.permanent.contains domain then ⟨true, "whitelist"⟩
  else if w.session.contains domain then ⟨true, "session"⟩
  else ⟨false, "blocked"⟩

/-- popup.js `addToWhitelist`. -/
def addToWhitelist (domain : String) (permanent : Bool) (w : Whitelists) : Whitelists :=
  if permanent then
    if w.permanent.contains domain then w
    else { w with permanent := w.permanent ++ [domain] }
  else
    if w.session.contains domain then w
    else { w with session := w.session ++ [domain] }

/-- popup.js `removeFromWhitelist`: filters the domain out of both lists
and writes both back. -/
def removeFromWhitelist (domain : String) (w : Whitelists) : Whitelists :=
  { permanent := w.permanent.filter (fun d => !(d == domain)),
    session := w.session.filter (fun d => !(d == domain)) }

/-! ## Capture interceptor: the console.error overrides -/

/-- A JS value as seen by the console wrappers: a primitive with its
string coercion, a plain object with its `JSON.stringify` outcome
(`none` = the serialization throws, e.g. a cyclic structure), or an
`Error` instance with message and stack. -/
inductive JsVal where
  | prim (coerced : String)
  | obj (stringified : Option String)
  | errObj (message : String) (stack : String)
deriving DecidableEq

/-- logger.js argument rendering: `a instanceof Error` gives
`a.message + '\n' + a.stack`, other objects go through `JSON.stringify`,
the rest through `String(a)`. -/
def renderArgLogger : JsVal → Except Unit String
  | .errObj m st => .ok (m ++ "\n" ++ st)
  | .obj (some j) => .ok j
  | .obj none => .error ()
  | .prim s => .ok s

/-- injected.js argument rendering: `typeof a === "object"` (true of
`Error` instances too, whose enumerable-property serialization is `{}`)
goes through `JSON.stringify`, the rest through `String(a)`. -/
def renderArgInjected : JsVal → Except Unit String
  | .errObj _ _ => .ok "\x7b\x7d"
  | .obj (some j) => .ok j
  | .obj none => .error ()
  | .prim s => .ok s

/-- `args.map(render)` with JS semantics: the first throw aborts. -/
def renderAll (render : JsVal → Except Unit String) : List JsVal → Except Unit (List String)
  | [] => .ok []
  | a :: rest => do
    let s ← render a
    let xs ← renderAll render rest
    .ok (s :: xs)

/-- `.join(' ')`. -/
def joinSpace : List String → String
  | [] => ""
  | [x] => x
  | x :: rest => x ++ " " ++ joinSpace rest

structure ConsoleCallResult where
  origCalls : List (List JsVal)
  emitted : Option String
deriving DecidableEq

/-- logger.js console.error override: `origError.apply(console, args)`
runs first, unconditionally; message derivation, sanitization and `send`
sit inside a try/catch whose failure only skips the emit. -/
def consoleErrorLogger (args : List JsVal) : ConsoleCallResult :=
  { origCalls := [args],
    emitted :=
      match renderAll renderArgLogger args with
      | .ok xs => some (sanitize (joinSpace xs))
      | .error _ => none }

/-- injected.js console.error override: the message is derived (without
any try/catch) BEFORE `originalError.apply(console, args)`; a throwing
serialization therefore propagates and the original is never invoked. -/
def consoleErrorInjected (args : List JsVal) : Except Unit ConsoleCallResult :=
  match renderAll renderArgInjected args with
  | .ok xs => .ok { origCalls := [args], emitted := some (joinSpace xs) }
  | .error e => .error e

/-! ## logger.js `send` and the HTTP fetch wrapper -/

/-- `String.prototype.substring(0, n)`. -/
def jsTake (n : Nat) (s : String) : String := String.mk (s.data.take n)

/-- The `data` argument object handed to `send` by the hooks. -/
structure SendData where
  message : Option String
  severity : Option String
  file : Option String
  line : Option Nat
  column : Option Nat
  responseBody : Option String
deriving DecidableEq

/-- The payload object that `send` posts across the relay boundary.
Its field list is exactly that of the source: `type`, `message`,
`severity`, `file`, `line`, `column`, `url`, `timestamp`; there is no
`responseBody` field (timestamp omitted here as claim-irrelevant). -/
structure SendPayload where
  type : String
  message : String
  severity : String
  file : String
  line : Option Nat
  column : Option Nat
  url : String
deriving DecidableEq

/-- logger.js `send`: builds the payload; `message` is
`data.message ? sanitize(String(data.message)).substring(0, 2000) : ''`
and `url` is `location.href.substring(0, 200)`. -/
def send (pageUrl : String) (ty : String) (d : SendData) : SendPayload :=
  { type := ty,
    message :=
      match d.message with
      | some m => if m = "" then "" else jsTake 2000 (sanitize m)
      | none => "",
    severity := d.severity.getD "error",
    file := d.file.getD "",
    line := d.line,
    column := d.column,
    url := jsTake 200 pageUrl }

/-- The fetch wrapper's body handling:
`if (errorBody.length > 500) errorBody = errorBody.substring(0, 500) + '...'`. -/
def truncResponseBody (raw : String) : String :=
  if 500 < raw.length then jsTake 500 raw ++ "..." else raw

/-- Outcome of the wrapped `origFetch` call: a response with a status and
a body text (`none` = reading the cloned body threw), or a rejection. -/
inductive FetchOutcome where
  | response (status : Nat) (bodyText : Option String)
  | rejected (errMessage : String)
deriving DecidableEq

structure WrapResult where
  sent : List SendPayload
  result : Except String Nat

/-- logger.js fetch wrapper: status ≥ 400 emits one `http.error` payload
(severity `critical` when ≥ 500, else `error`) and returns the response;
a rejection emits one `http.network` payload with severity `critical` and
rethrows the original error. -/
def fetchWrapper (pageUrl url method : String) (r : FetchOutcome) : WrapResult :=
  match r with
  | .response st body =>
    if 400 ≤ st then
      let errorBody :=
        match body with
        | some t => truncResponseBody t
        | none => ""
      { sent := [send pageUrl "http.error"
          { message := some ("HTTP " ++ toString st ++ ": " ++ method ++ " " ++ url),
            severity := some (if 500 ≤ st then "critical" else "error"),
            file := some url,
            line := some st,
            column := none,
            responseBody := some (sanitize errorBody) }],
        result := .ok st }
    else { sent := [], result := .ok st }
  | .rejected m =>
    { sent := [send pageUrl "http.network"
        { message := some ("Network Error: " ++ method ++ " " ++ url ++ " - " ++ m),
          severity := some "critical",
          file := some url,
          line := none,
          column := none,
          responseBody := none }],
      result := .error m }

/-! # Theorems

Helper lemmas first, then one theorem per audited claim (with witnesses
and counterexamples). -/

/-! ## Character-class lemmas -/

theorem letter_digit_absurd {c : Char} (hl : isRegexLetter c = true)
    (hd : isRegexDigit c = true) : False := by
  simp only [isRegexLetter, isRegexDigit, Bool.or_eq_true, Bool.and_eq_true,
    decide_eq_true_eq] at hl hd
  rcases hl with ⟨h1, _⟩ | ⟨h1, _⟩
  · exact absurd (le_trans h1 hd.2) (by decide)
  · exact absurd (le_trans h1 hd.2) (by decide)

theorem ne_char_of_alnum {c : Char} (h : isRegexAlnum c = true) (d : Char)
    (hd : isRegexAlnum d = false) : (c == d) = false := by
  rw [beq_eq_false_iff_ne]
  rintro rfl
  simp [h] at hd

theorem not_space_of_alnum {c : Char} (h : isRegexAlnum c = true) : isJsSpace c = false := by
  by_contra hs
  rw [Bool.not_eq_false] at hs
  simp only [isJsSpace, Bool.or_eq_true, beq_iff_eq, or_assoc] at hs
  rcases hs with rfl|rfl|rfl|rfl|rfl|rfl|rfl|rfl|rfl|rfl|rfl|rfl|rfl|rfl|rfl|rfl|rfl|rfl|rfl|
    rfl|rfl|rfl|rfl|rfl|rfl
  all_goals exact absurd h (by decide)

theorem not_pwSep_of_alnum {c : Char} (h : isRegexAlnum c = true) : isPwSepChar c = false := by
  simp [isPwSepChar, not_space_of_alnum h, ne_char_of_alnum h '"' (by decide),
    ne_char_of_alnum h ':' (by decide), ne_char_of_alnum h '=' (by decide)]

theorem apiChar_of_alnum {c : Char} (h : isRegexAlnum c = true) : isApiChar c = true := by
  simp [isApiChar, h]

theorem wordChar_of_alnum {c : Char} (h : isRegexAlnum c = true) : isWordChar c = true := by
  simp [isWordChar, h]

theorem domainChar_of_alnum {c : Char} (h : isRegexAlnum c = true) :
    isEmailDomainChar c = true := by
  simp [isEmailDomainChar, h]

theorem alnum_of_letter {c : Char} (h : isRegexLetter c = true) : isRegexAlnum c = true := by
  simp [isRegexAlnum, h]

theorem not_at_of_alnum {c : Char} (h : isRegexAlnum c = true) : c ≠ '@' := by
  rintro rfl
  exact absurd h (by decide)

theorem not_sp_of_alnum {c : Char} (h : isRegexAlnum c = true) : c ≠ ' ' := by
  rintro rfl
  exact absurd h (by decide)

/-! ## Scanner lemmas -/

theorem replaceScanF_nil (ml : Option Char → List Char → Option Nat) (token : List Char)
    (fuel : Nat) (prev : Option Char) : replaceScanF ml token fuel prev [] = [] := by
  cases fuel <;> rfl

/-- The scanner is the identity when the matcher fails at the start and at
every later position (with the threaded previous character). -/
theorem replaceScanF_id (ml : Option Char → List Char → Option Nat) (token : List Char) :
    ∀ (fuel : Nat) (s : List Char) (prev : Option Char), s.length ≤ fuel →
      ml prev s = none →
      (∀ c t, c :: t <:+ s → ml (some c) t = none) →
      replaceScanF ml token fuel prev s = s := by
  intro fuel
  induction fuel with
  | zero =>
    intro s prev hlen _ _
    cases s with
    | nil => rfl
    | cons c rest => simp at hlen
  | succ f ih =>
    intro s prev hlen h1 h2
    cases s with
    | nil => rfl
    | cons c rest =>
      simp only [replaceScanF, h1]
      refine congrArg (c :: ·) (ih rest (some c) ?_ ?_ ?_)
      · simp only [List.length_cons] at hlen
        omega
      · exact h2 c rest (List.suffix_refl _)
      · exact fun c' t' h' => h2 c' t' (h'.trans (List.suffix_cons c rest))

/-- The scanner returns exactly the token when the matcher consumes the
whole input in one match. -/
theorem replaceScanF_full (ml : Option Char → List Char → Option Nat) (token : List Char)
    (fuel : Nat) (prev : Option Char) (c : Char) (rest : List Char)
    (hm : ml prev (c :: rest) = some (rest.length + 1)) :
    replaceScanF ml token (fuel + 1) prev (c :: rest) = token := by
  simp only [replaceScanF, hm]
  rw [show rest.length + 1 - 1 = rest.length by omega, List.drop_length, replaceScanF_nil,
    List.append_nil]

/-! ## Pass lemmas: when a pass is the identity -/

theorem emailMatchLen_none {s : List Char} (h : '@' ∉ s) : emailMatchLen s = none := by
  rw [emailMatchLen]
  split
  · rfl
  · cases hd : s.drop ((s.takeWhile isEmailLocalChar).length) with
    | nil => rfl
    | cons a rest =>
      have ha : a ≠ '@' := by
        rintro rfl
        exact h (List.drop_subset _ s (by rw [hd]; exact List.mem_cons_self _ _))
      simp [ha]

theorem emailPass_id {s : List Char} (h : '@' ∉ s) : emailPass s = s := by
  refine replaceScanF_id emailMl _ s.length s none (le_refl _) (emailMatchLen_none h) ?_
  intro c t hsuf
  exact emailMatchLen_none fun hm => h (hsuf.subset (List.mem_cons_of_mem c hm))

theorem bearerMl_none (pr : Option Char) {s : List Char} (h : ' ' ∉ s) :
    bearerMl pr s = none := by
  have hne : s.take 7 ≠ "Bearer ".data := by
    intro htake
    have hsp : ' ' ∈ s.take 7 := by
      rw [htake]
      decide
    exact h (List.mem_of_mem_take hsp)
  rw [bearerMl, if_neg hne]

theorem bearerPass_id {s : List Char} (h : ' ' ∉ s) : bearerPass s = s := by
  refine replaceScanF_id bearerMl _ s.length s none (le_refl _) (bearerMl_none none h) ?_
  intro c t hsuf
  exact bearerMl_none (some c) fun hm => h (hsuf.subset (List.mem_cons_of_mem c hm))

theorem pwMl_none (pr : Option Char) {s : List Char}
    (h : ∀ c ∈ s, isPwSepChar c = false) : pwMl pr s = none := by
  rw [pwMl]
  split
  · have htw : (s.drop 8).takeWhile isPwSepChar = [] := by
      cases hd : s.drop 8 with
      | nil => rfl
      | cons a t =>
        rw [List.takeWhile_cons, h a (List.drop_subset 8 s (by
          rw [hd]; exact List.mem_cons_self _ _))]
        simp
    rw [htw]
    rfl
  · rfl

theorem pwPass_id {s : List Char} (h : ∀ c ∈ s, isPwSepChar c = false) : pwPass s = s := by
  refine replaceScanF_id pwMl _ s.length s none (le_refl _) (pwMl_none none h) ?_
  intro c t hsuf
  exact pwMl_none (some c) fun x hx => h x (hsuf.subset (List.mem_cons_of_mem c hx))

/-! ## Pass 4 lemmas: the card pass on alphanumeric text -/

theorem cardMl_none_inner {c : Char} {s : List Char} (hc : isRegexAlnum c = true)
    (hs : ∀ x ∈ s, isRegexAlnum x = true) : cardMl (some c) s = none := by
  rw [cardMl]
  split
  · rfl
  · rename_i hd0
    have hb : boundaryB (some c) s[0]? = false := by
      cases s with
      | nil => simp at hd0
      | cons a t =>
        simp [boundaryB, isWordOpt, wordChar_of_alnum hc,
          wordChar_of_alnum (hs a (List.mem_cons_self _ _))]
    simp [hb]

theorem cardEndSearch_none (s : List Char) :
    ∀ k, (∀ j, 13 ≤ j → j ≤ k → boundaryB s[j - 1]? s[j]? = false) →
      cardEndSearch s k = none := by
  intro k
  induction k with
  | zero => intro _; rfl
  | succ n ih =>
    intro h
    rw [cardEndSearch]
    split
    · rfl
    · have hb := h (n + 1) (by omega) (le_refl _)
      simp only [Nat.add_sub_cancel] at hb
      rw [hb]
      simp only [Bool.false_eq_true, if_false]
      exact ih fun j hj1 hj2 => h j hj1 (by omega)

theorem cardMl_none_head {s : List Char} (hs : ∀ x ∈ s, isRegexAlnum x = true)
    (hl : s.any isRegexLetter = true) : cardMl none s = none := by
  rw [cardMl]
  split
  · rfl
  · split
    · apply cardEndSearch_none
      intro j h13 hjk
      have hjd : j ≤ (s.takeWhile isRegexDigit).length :=
        le_trans hjk (min_le_left _ _)
      have hpre : s.takeWhile isRegexDigit <+: s := List.takeWhile_prefix _
      obtain ⟨t, ht⟩ := hpre
      have hj1 : j - 1 < (s.takeWhile isRegexDigit).length := by omega
      obtain ⟨c1, hc1⟩ : ∃ c1, (s.takeWhile isRegexDigit)[j - 1]? = some c1 :=
        ⟨_, List.getElem?_eq_getElem hj1⟩
      have hs1 : s[j - 1]? = some c1 := by
        rw [← ht, List.getElem?_append_left hj1]
        exact hc1
      have hw1 : isWordChar c1 = true :=
        wordChar_of_alnum (by
          simp [isRegexAlnum, List.mem_takeWhile_imp (List.getElem?_mem hc1)])
      by_cases hjlt : j < (s.takeWhile isRegexDigit).length
      · obtain ⟨c2, hc2⟩ : ∃ c2, (s.takeWhile isRegexDigit)[j]? = some c2 :=
          ⟨_, List.getElem?_eq_getElem hjlt⟩
        have hs2 : s[j]? = some c2 := by
          rw [← ht, List.getElem?_append_left hjlt]
          exact hc2
        have hw2 : isWordChar c2 = true :=
          wordChar_of_alnum (by
            simp [isRegexAlnum, List.mem_takeWhile_imp (List.getElem?_mem hc2)])
        simp [boundaryB, isWordOpt, hs1, hs2, hw1, hw2]
      · have hjeq : j = (s.takeWhile isRegexDigit).length := by omega
        cases t with
        | nil =>
          exfalso
          rw [List.append_nil] at ht
          obtain ⟨x, hx, hxl⟩ := List.any_eq_true.mp hl
          exact letter_digit_absurd hxl
            (List.mem_takeWhile_imp (by rw [ht]; exact hx))
        | cons r rt =>
          have hs2 : s[j]? = some r := by
            rw [← ht, hjeq, List.getElem?_append_right (le_refl _)]
            simp
          have hw2 : isWordChar r = true := wordChar_of_alnum (hs r (by
            rw [← ht]
            exact List.mem_append_right _ (List.mem_cons_self _ _)))
          simp [boundaryB, isWordOpt, hs1, hs2, hw1, hw2]
    · rfl

theorem cardPass_id {s : List Char} (hs : ∀ x ∈ s, isRegexAlnum x = true)
    (hl : s.any isRegexLetter = true) : cardPass s = s := by
  refine replaceScanF_id cardMl _ s.length s none (le_refl _) (cardMl_none_head hs hl) ?_
  intro c t hsuf
  exact cardMl_none_inner (hs c (hsuf.subset (List.mem_cons_self _ _)))
    (fun x hx => hs x (hsuf.subset (List.mem_cons_of_mem c hx)))

/-! ## Pass 5 lemmas: the API-key pass consumes a full qualifying run -/

theorem apiEndSearch_full {s : List Char} (hlen : 32 ≤ s.length)
    (hs : ∀ x ∈ s, isRegexAlnum x = true) : apiEndSearch s s.length = some s.length := by
  have hne : s ≠ [] := by
    intro h0
    rw [h0] at hlen
    simp at hlen
  obtain ⟨l', a, hsa⟩ : ∃ l' a, s = l' ++ [a] :=
    ⟨s.dropLast, s.getLast hne, (List.dropLast_append_getLast hne).symm⟩
  have hlen' : s.length = l'.length + 1 := by
    rw [hsa]
    simp
  rw [hlen', apiEndSearch, if_neg (by omega)]
  have h1 : s[l'.length]? = some a := by
    rw [hsa]
    exact List.getElem?_concat_length _ _
  have h2 : s[l'.length + 1]? = none := List.getElem?_eq_none (by omega)
  have hw : isWordChar a = true := wordChar_of_alnum (hs a (by
    rw [hsa]
    exact List.mem_append_right _ (List.mem_cons_self _ _)))
  simp [boundaryB, isWordOpt, h1, h2, hw]

theorem apiMl_full {s : List Char} (hlen : 32 ≤ s.length)
    (hs : ∀ x ∈ s, isRegexAlnum x = true) (hletter : s.any isRegexLetter = true)
    (hdigit : s.any isRegexDigit = true) : apiMl none s = some s.length := by
  rw [apiMl]
  have hns : s.takeWhile (fun c => !isJsSpace c) = s :=
    List.takeWhile_eq_self_iff.mpr fun x hx => by simp [not_space_of_alnum (hs x hx)]
  have hapi : s.takeWhile isApiChar = s :=
    List.takeWhile_eq_self_iff.mpr fun x hx => apiChar_of_alnum (hs x hx)
  have hb : boundaryB none s[0]? = true := by
    cases s with
    | nil => simp at hlen
    | cons c rest =>
      simp [boundaryB, isWordOpt, wordChar_of_alnum (hs c (List.mem_cons_self _ _))]
  rw [hns, hapi, hb, hletter, hdigit]
  simp only [Bool.and_self, if_true]
  exact apiEndSearch_full hlen hs

theorem apiPass_full {s : List Char} (hlen : 32 ≤ s.length)
    (hs : ∀ x ∈ s, isRegexAlnum x = true) (hletter : s.any isRegexLetter = true)
    (hdigit : s.any isRegexDigit = true) : apiPass s = "[API_KEY]".data := by
  cases s with
  | nil => simp at hlen
  | cons c rest =>
    have hm : apiMl none (c :: rest) = some (rest.length + 1) := by
      have h := apiMl_full hlen hs hletter hdigit
      simpa using h
    exact replaceScanF_full apiMl _ rest.length none c rest hm

/-! ## Pass 1 lemmas: the email pass consumes a full address -/

theorem emailDotSearch_spec {dom tld : List Char} (h3 : dom ≠ [])
    (h5 : 2 ≤ tld.length) (h6 : ∀ c ∈ tld, isRegexLetter c = true) :
    ∀ j, j ≤ tld.length →
      emailDotSearch (dom ++ '.' :: tld) (dom.length + j) =
        some (dom.length + 1 + tld.length) := by
  intro j
  induction j with
  | zero =>
    intro _
    obtain ⟨k, hk⟩ : ∃ k, dom.length = k + 1 :=
      ⟨dom.length - 1, by have := List.length_pos.mpr h3; omega⟩
    have hget : (dom ++ '.' :: tld)[k + 1]? = some '.' := by
      rw [← hk, List.getElem?_append_right (le_refl _)]
      simp
    have hdrop : (dom ++ '.' :: tld).drop (k + 2) = tld := by
      rw [show dom ++ '.' :: tld = (dom ++ ['.']) ++ tld by simp]
      rw [List.drop_left' (by simp; omega)]
    have hrun : letterRunLen tld = tld.length := by
      rw [letterRunLen, List.takeWhile_eq_self_iff.mpr h6]
    rw [Nat.add_zero, hk, emailDotSearch, hget, hdrop, hrun, if_pos (by simp [h5])]
  | succ n ihn =>
    intro hj
    obtain ⟨c, hc⟩ : ∃ c, tld[n]? = some c := ⟨_, List.getElem?_eq_getElem (by omega)⟩
    have hget : (dom ++ '.' :: tld)[dom.length + n + 1]? = some c := by
      rw [List.getElem?_append_right (by omega)]
      rw [show dom.length + n + 1 - dom.length = n + 1 by omega]
      simp [hc]
    have hcl : c ≠ '.' := by
      intro h0
      have hcal := h6 c (List.getElem?_mem hc)
      rw [h0] at hcal
      exact absurd hcal (by decide)
    rw [show dom.length + (n + 1) = (dom.length + n) + 1 by omega, emailDotSearch, hget,
      if_neg (by simp [hcl])]
    exact ihn (by omega)

theorem emailMatchLen_full {lp dom tld : List Char}
    (h1 : lp ≠ []) (h2 : ∀ c ∈ lp, isEmailLocalChar c = true)
    (h3 : dom ≠ []) (h4 : ∀ c ∈ dom, isEmailDomainChar c = true)
    (h5 : 2 ≤ tld.length) (h6 : ∀ c ∈ tld, isRegexLetter c = true) :
    emailMatchLen (lp ++ '@' :: (dom ++ '.' :: tld)) =
      some (lp.length + 1 + (dom.length + 1 + tld.length)) := by
  have htake : (lp ++ '@' :: (dom ++ '.' :: tld)).takeWhile isEmailLocalChar = lp := by
    rw [List.takeWhile_append_of_pos h2, List.takeWhile_cons,
      show isEmailLocalChar '@' = false from by decide]
    simp
  rw [emailMatchLen, htake, if_neg (by simp [List.length_eq_zero, h1]), List.drop_left]
  show (if ('@' : Char) = '@' then
      (match emailDotSearch (dom ++ '.' :: tld)
          (((dom ++ '.' :: tld).takeWhile isEmailDomainChar).length - 1) with
        | some e => some (lp.length + 1 + e)
        | none => none)
    else none) = some (lp.length + 1 + (dom.length + 1 + tld.length))
  rw [if_pos rfl]
  have htw : (dom ++ '.' :: tld).takeWhile isEmailDomainChar = dom ++ '.' :: tld := by
    refine List.takeWhile_eq_self_iff.mpr fun x hx => ?_
    rcases List.mem_append.mp hx with hx1 | hx2
    · exact h4 x hx1
    · rcases List.mem_cons.mp hx2 with rfl | hx3
      · decide
      · exact domainChar_of_alnum (alnum_of_letter (h6 x hx3))
  rw [htw, show (dom ++ '.' :: tld).length - 1 = dom.length + tld.length by simp]
  rw [emailDotSearch_spec h3 h5 h6 tld.length (le_refl _)]

theorem emailPass_full {lp dom tld : List Char}
    (h1 : lp ≠ []) (h2 : ∀ c ∈ lp, isEmailLocalChar c = true)
    (h3 : dom ≠ []) (h4 : ∀ c ∈ dom, isEmailDomainChar c = true)
    (h5 : 2 ≤ tld.length) (h6 : ∀ c ∈ tld, isRegexLetter c = true) :
    emailPass (lp ++ '@' :: (dom ++ '.' :: tld)) = "[EMAIL]".data := by
  cases lp with
  | nil => exact absurd rfl h1
  | cons x lp2 =>
    have hm : emailMl none (x :: (lp2 ++ '@' :: (dom ++ '.' :: tld))) =
        some ((lp2 ++ '@' :: (dom ++ '.' :: tld)).length + 1) := by
      show emailMatchLen ((x :: lp2) ++ '@' :: (dom ++ '.' :: tld)) = _
      rw [emailMatchLen_full h1 h2 h3 h4 h5 h6]
      congr 1
      simp
      omega
    exact replaceScanF_full emailMl _ (lp2 ++ '@' :: (dom ++ '.' :: tld)).length none x
      (lp2 ++ '@' :: (dom ++ '.' :: tld)) hm

/-! ## Batching-queue lemmas -/

theorem scheduleFlush_eq {R : Type} (s : RelayState R) :
    scheduleFlush s = { s with flushTimer := true } := by
  rw [scheduleFlush]
  split
  · rename_i h
    cases s
    simp_all
  · rfl

/-- Below the batch size, `queueError` just appends and arms the timer. -/
theorem queueError_below {R : Type} (p : R) (s : RelayState R)
    (h : s.errorQueue.length + 1 < BATCH_SIZE) :
    queueError p s = { s with errorQueue := s.errorQueue ++ [p], flushTimer := true } := by
  rw [queueError, if_neg (by simp; omega)]
  exact scheduleFlush_eq _

/-- Folding fewer than `BATCH_SIZE - length` records through `queueError`
appends them all and leaves the timer armed (when any record arrived). -/
theorem enqueueAll_below {R : Type} :
    ∀ (ps : List R) (s : RelayState R), s.errorQueue.length + ps.length < BATCH_SIZE →
      enqueueAll ps s =
        { s with errorQueue := s.errorQueue ++ ps,
                 flushTimer := s.flushTimer || !ps.isEmpty } := by
  intro ps
  induction ps with
  | nil =>
    intro s _
    cases s
    simp [enqueueAll]
  | cons p ps2 ih =>
    intro s h
    show enqueueAll (p :: ps2) s = _
    have hfold : enqueueAll (p :: ps2) s = enqueueAll ps2 (queueError p s) := by
      simp [enqueueAll]
    rw [hfold, queueError_below p s (by simp at h; omega)]
    rw [ih _ (by simp at h ⊢; omega)]
    cases s
    simp

theorem enqueueAll_server {R : Type} :
    ∀ (ps : List R) (s : RelayState R),
      (enqueueAll ps s).isServerAvailable = s.isServerAvailable := by
  intro ps
  induction ps with
  | nil => intro s; rfl
  | cons p ps2 ih =>
    intro s
    have hfold : enqueueAll (p :: ps2) s = enqueueAll ps2 (queueError p s) := by
      simp [enqueueAll]
    rw [hfold, ih]
    rw [queueError]
    split
    · rw [flushQueueStep]
      split <;> rfl
    · rw [scheduleFlush]
      split <;> rfl

theorem flushQueueStep_server {R : Type} (s : RelayState R) :
    (flushQueueStep s).isServerAvailable = s.isServerAvailable := by
  rw [flushQueueStep]
  split <;> rfl

/-! ## Truncation lemmas (logger.js `send` / fetch wrapper) -/

theorem jsTake_length_le (n : Nat) (s : String) : (jsTake n s).length ≤ n := by
  simp only [jsTake, String.length, List.length_take]
  omega

theorem truncResponseBody_le (raw : String) : (truncResponseBody raw).length ≤ 503 := by
  rw [truncResponseBody]
  split
  · rw [String.length_append]
    have h := jsTake_length_le 500 raw
    have h3 : ("..." : String).length = 3 := rfl
    omega
  · rename_i h
    omega

set_option maxRecDepth 8000

/-! # Claim theorems -/

/-- C1, counterexample: the claim "sanitize output contains `[EMAIL]` at
each position where an email occurred (count-preserving)" fails on the
input `password:a@b.co`, which contains an email-shaped substring but
whose sanitized output `password=[REDACTED]` contains no `[EMAIL]` token:
the later password pass absorbs the token produced by the email pass. -/
theorem sanitize_email_count_counterexample :
    existsEmailMatch "password:a@b.co".data = true ∧
    containsSeq "[EMAIL]".data (sanitize "password:a@b.co").data = false ∧
    sanitize "password:a@b.co" = "password=[REDACTED]" := by
  refine ⟨by decide, by decide, by decide⟩

/-- C1, amended: for every input that is exactly one email-shaped string
`lp@dom.tld` (non-empty local part over `[a-zA-Z0-9._%+-]`, non-empty
domain over `[a-zA-Z0-9.-]`, and a top-level label of at least two ASCII
letters), `sanitize` returns exactly `[EMAIL]`: the email occurrence is
replaced, no email-shaped substring survives, and the count (one) is
preserved.  In general contexts a later pass (e.g. password redaction)
may absorb the `[EMAIL]` token, as the counterexample shows. -/
theorem sanitize_single_email_amended (lp dom tld : List Char)
    (h1 : lp ≠ []) (h2 : ∀ c ∈ lp, isEmailLocalChar c = true)
    (h3 : dom ≠ []) (h4 : ∀ c ∈ dom, isEmailDomainChar c = true)
    (h5 : 2 ≤ tld.length) (h6 : ∀ c ∈ tld, isRegexLetter c = true) :
    sanitize (String.mk (lp ++ '@' :: (dom ++ '.' :: tld))) = "[EMAIL]" := by
  show String.mk (sanitizeL (lp ++ '@' :: (dom ++ '.' :: tld))) = "[EMAIL]"
  rw [sanitizeL, emailPass_full h1 h2 h3 h4 h5 h6]
  decide

/-- C1, witness: the amended theorem at `user@mail.com`. -/
theorem sanitize_single_email_amended_witness :
    sanitize (String.mk ("user".data ++ '@' :: ("mail".data ++ '.' :: "com".data))) =
      "[EMAIL]" :=
  sanitize_single_email_amended "user".data "mail".data "com".data (by decide) (by decide)
    (by decide) (by decide) (by decide) (by decide)

/-- C2 (code bug): the logger.js console.error override always invokes the
original exactly once with the identical arguments (it calls through
before its try/catch-protected pipeline), but the injected.js override
derives the joined message BEFORE calling through and without try/catch,
so an argument whose serialization throws (a cyclic object,
`JsVal.obj none`) makes the wrapper throw and the original console.error
is never invoked — contradicting the claimed pass-through invariant. -/
theorem console_error_passthrough_bug :
    (∀ args : List JsVal, (consoleErrorLogger args).origCalls = [args]) ∧
    consoleErrorInjected [JsVal.obj none] = Except.error () :=
  ⟨fun _ => rfl, rfl⟩

/-- C3: from the initial state (empty queue, no timer, server assumed
available), enqueuing exactly `BATCH_SIZE` records triggers exactly one
`flushQueue` call whose batch is all ten records in enqueue order, and
leaves the queue empty with no timer armed. -/
theorem enqueue_batchsize_single_flush {R : Type} (ps : List R) (h : ps.length = BATCH_SIZE) :
    enqueueAll ps (initState R) =
      { errorQueue := [], isServerAvailable := true, flushTimer := false,
        flushCalls := 1, posted := [ps] } := by
  have hne : ps ≠ [] := by
    intro h0
    rw [h0] at h
    simp [BATCH_SIZE] at h
  have hdl : ps.dropLast.length = 9 := by
    simp [BATCH_SIZE] at h
    simp [h]
  have hdlne : ps.dropLast.isEmpty = false := by
    cases hdd : ps.dropLast with
    | nil => rw [hdd] at hdl; simp at hdl
    | cons a t => rfl
  conv_lhs => rw [← List.dropLast_append_getLast hne]
  have hfold : enqueueAll (ps.dropLast ++ [ps.getLast hne]) (initState R) =
      queueError (ps.getLast hne) (enqueueAll ps.dropLast (initState R)) := by
    simp [enqueueAll]
  rw [hfold, enqueueAll_below ps.dropLast (initState R) (by simp [initState, BATCH_SIZE, hdl])]
  rw [queueError]
  rw [if_pos (by simp [initState, BATCH_SIZE, hdl])]
  rw [flushQueueStep]
  rw [if_neg (by simp [initState])]
  simp [initState, hdlne, List.dropLast_append_getLast hne]

/-- C3, witness: ten concrete records. -/
theorem enqueue_batchsize_single_flush_witness :
    enqueueAll [0, 1, 2, 3, 4, 5, 6, 7, 8, 9] (initState Nat) =
      { errorQueue := [], isServerAvailable := true, flushTimer := false,
        flushCalls := 1, posted := [[0, 1, 2, 3, 4, 5, 6, 7, 8, 9]] } :=
  enqueue_batchsize_single_flush [0, 1, 2, 3, 4, 5, 6, 7, 8, 9] (by decide)

/-- C4: a failed flush attempt (non-empty queue, server marked available,
fewer than `BATCH_SIZE` records enqueued while the fetch is in flight)
leaves the queue equal to the failed batch in its original order followed
by the records enqueued during the attempt — no loss, no duplication. -/
theorem failed_flush_requeue_order {R : Type} (s : RelayState R) (during : List R)
    (hq : s.errorQueue ≠ []) (hsrv : s.isServerAvailable = true)
    (hd : during.length < BATCH_SIZE) :
    (failedFlushScenario s during).errorQueue = s.errorQueue ++ during := by
  have hie : s.errorQueue.isEmpty = false := by
    cases hq2 : s.errorQueue with
    | nil => exact absurd hq2 hq
    | cons a t => rfl
  have hstep : flushQueueStep s =
      { s with flushCalls := s.flushCalls + 1, errorQueue := [],
               posted := s.posted ++ [s.errorQueue] } := by
    rw [flushQueueStep, if_neg (by simp [hie, hsrv])]
  rw [failedFlushScenario, hstep]
  rw [enqueueAll_below during _ (by simp; omega)]
  simp [hie, hsrv]

/-- C4, witness: a concrete failed flush with two in-flight records. -/
theorem failed_flush_requeue_order_witness :
    (failedFlushScenario (⟨[1, 2, 3], true, false, 0, []⟩ : RelayState Nat)
      [4, 5]).errorQueue = [1, 2, 3] ++ [4, 5] :=
  failed_flush_requeue_order ⟨[1, 2, 3], true, false, 0, []⟩ [4, 5] (by decide) rfl (by decide)

/-- C5, counterexample: the claim "every failed flush sets
`isServerAvailable` to false" is false — after a failed flush from the
state with one queued record and `isServerAvailable = true`, the flag is
still `true`: the catch/`!response.ok` handlers of `flushQueue` only
requeue the batch and never touch the flag. -/
theorem flush_failure_server_flag_counterexample :
    (failedFlushScenario (⟨[0], true, false, 0, []⟩ : RelayState Nat) []).isServerAvailable =
      true := by decide

/-- C5, amended: a failed flush leaves `isServerAvailable` unchanged for
every state; the flag is set to `false` only by `checkServer`, whose
probe failure (`/api/config` throwing or returning non-ok) records
`isServerAvailable = false`. -/
theorem flush_failure_server_flag_amended {R : Type} (s : RelayState R) (during : List R)
    (probe : ProbeOutcome) (hp : probe ≠ ProbeOutcome.ok) :
    (failedFlushScenario s during).isServerAvailable = s.isServerAvailable ∧
    (checkServer s probe).isServerAvailable = false := by
  constructor
  · show (enqueueAll during (flushQueueStep s)).isServerAvailable = s.isServerAvailable
    rw [enqueueAll_server, flushQueueStep_server]
  · cases probe with
    | ok => exact absurd rfl hp
    | notOk => rfl
    | threw => rfl

/-- C5, witness: the amended theorem at a concrete state and probe. -/
theorem flush_failure_server_flag_amended_witness :
    (failedFlushScenario (⟨[0], true, false, 0, []⟩ : RelayState Nat) [1]).isServerAvailable =
      true ∧
    (checkServer (⟨[0], true, false, 0, []⟩ : RelayState Nat)
      ProbeOutcome.notOk).isServerAvailable = false :=
  flush_failure_server_flag_amended ⟨[0], true, false, 0, []⟩ [1] ProbeOutcome.notOk
    (by decide)

/-- C6: popup.js `isDomainAllowed` evaluates auto-allow, then the
permanent whitelist, then the session whitelist, then blocked, first
match winning: `localhost:5173` is `auto` even when whitelisted;
`example.com` is `blocked` with empty whitelists, and `whitelist` after
`addToWhitelist("example.com", permanent = true)` (also when it sits in
both lists). -/
theorem admission_order_eval :
    isDomainAllowed "localhost:5173" ⟨[], []⟩ = ⟨true, "auto"⟩ ∧
    isDomainAllowed "example.com" ⟨[], []⟩ = ⟨false, "blocked"⟩ ∧
    isDomainAllowed "example.com" (addToWhitelist "example.com" true ⟨[], []⟩) =
      ⟨true, "whitelist"⟩ ∧
    isDomainAllowed "localhost:5173" ⟨["localhost:5173"], ["localhost:5173"]⟩ =
      ⟨true, "auto"⟩ ∧
    isDomainAllowed "example.com" ⟨["example.com"], ["example.com"]⟩ =
      ⟨true, "whitelist"⟩ ∧
    isDomainAllowed "example.com" ⟨[], ["example.com"]⟩ = ⟨true, "session"⟩ := by
  refine ⟨by decide, by decide, by decide, by decide, by decide, by decide⟩

/-- C7, counterexample: the claim "every input containing a 32+-character
alphanumeric run with a letter and a digit sanitizes to something
containing `[API_KEY]`" fails on `Bearer ` followed by such a run: the
earlier bearer-token pass absorbs the run into `[TOKEN]` before the
API-key pass runs. -/
theorem sanitize_apikey_counterexample :
    existsAlnumRun32 "Bearer aaaaaaaaaaaaaaaa1111111111111111".data = true ∧
    containsSeq "[API_KEY]".data
      (sanitize "Bearer aaaaaaaaaaaaaaaa1111111111111111").data = false ∧
    sanitize "Bearer aaaaaaaaaaaaaaaa1111111111111111" = "[TOKEN]" := by
  refine ⟨by decide, by decide, by decide⟩

/-- C7, amended: for every input that is exactly a 32+-character
alphanumeric run containing at least one letter and at least one digit,
`sanitize` returns exactly `[API_KEY]` — the run is replaced and does not
survive (the output is 9 characters long, shorter than the run).  In
larger contexts an earlier pass (bearer, password) can absorb the run, as
the counterexample shows. -/
theorem sanitize_apikey_run_amended (s : List Char) (hlen : 32 ≤ s.length)
    (hs : ∀ x ∈ s, isRegexAlnum x = true) (hletter : s.any isRegexLetter = true)
    (hdigit : s.any isRegexDigit = true) :
    sanitize (String.mk s) = "[API_KEY]" := by
  show String.mk (sanitizeL s) = "[API_KEY]"
  rw [sanitizeL, emailPass_id (fun hmem => absurd (hs '@' hmem) (by decide)),
    bearerPass_id (fun hmem => absurd (hs ' ' hmem) (by decide)),
    pwPass_id (fun c hc => not_pwSep_of_alnum (hs c hc)),
    cardPass_id hs hletter,
    apiPass_full hlen hs hletter hdigit]
  decide

/-- C7, witness: the amended theorem at a concrete 32-character run. -/
theorem sanitize_apikey_run_amended_witness :
    sanitize (String.mk "aaaaaaaaaaaaaaaa1111111111111111".data) = "[API_KEY]" :=
  sanitize_apikey_run_amended "aaaaaaaaaaaaaaaa1111111111111111".data (by decide)
    (by decide) (by decide) (by decide)

/-- C8, counterexample: the fetch wrapper truncates a long response body
to 500 characters PLUS a three-character ellipsis, so a 501-character
body yields a 503-character `responseBody` — not "at most 500" as
claimed (and `send` does not even copy the field into the posted
payload, whose field list has no `response_body`). -/
theorem response_body_truncation_counterexample :
    (truncResponseBody (String.mk (List.replicate 501 'a'))).length = 503 := by decide

/-- C8, amended: every payload built by `send` has `message` of at most
2000 characters and `url` of at most 200 characters; the response body
string computed by the fetch wrapper is at most 503 characters (500 plus
the `...` ellipsis), and it is passed to `send` but dropped from the
posted payload. -/
theorem send_truncation_amended :
    (∀ (pu ty : String) (d : SendData),
      (send pu ty d).message.length ≤ 2000 ∧ (send pu ty d).url.length ≤ 200) ∧
    (∀ raw : String, (truncResponseBody raw).length ≤ 503) := by
  constructor
  · intro pu ty d
    constructor
    · rw [send]
      cases d.message with
      | none => simp
      | some m =>
        by_cases hm : m = ""
        · simp [hm]
        · simp [hm]
          exact jsTake_length_le 2000 (sanitize m)
    · rw [send]
      exact jsTake_length_le 200 pu
  · exact truncResponseBody_le

/-- C9: the fetch wrapper emits exactly one `http.error` payload with
severity `error` for a 4xx response and `critical` for a 5xx response,
returning the response unchanged; a network-level rejection emits exactly
one `http.network` payload with severity `critical` and the original
rejection propagates to the caller.  (The spec names these record kinds
`http_client_error` / `http_network_error`; the code's type tags are
`http.error` / `http.network`.) -/
theorem fetch_wrapper_emission (pu url method m : String) (st1 st2 : Nat)
    (b1 b2 : Option String) (h1 : 400 ≤ st1) (h2 : st1 < 500) (h3 : 500 ≤ st2) :
    (fetchWrapper pu url method (.response st1 b1)).sent.map SendPayload.type =
      ["http.error"] ∧
    (fetchWrapper pu url method (.response st1 b1)).sent.map SendPayload.severity =
      ["error"] ∧
    (fetchWrapper pu url method (.response st1 b1)).result = Except.ok st1 ∧
    (fetchWrapper pu url method (.response st2 b2)).sent.map SendPayload.type =
      ["http.error"] ∧
    (fetchWrapper pu url method (.response st2 b2)).sent.map SendPayload.severity =
      ["critical"] ∧
    (fetchWrapper pu url method (.response st2 b2)).result = Except.ok st2 ∧
    (fetchWrapper pu url method (.rejected m)).sent.map SendPayload.type =
      ["http.network"] ∧
    (fetchWrapper pu url method (.rejected m)).sent.map SendPayload.severity =
      ["critical"] ∧
    (fetchWrapper pu url method (.rejected m)).result = Except.error m := by
  have h4 : 400 ≤ st2 := by omega
  have h5 : ¬ 500 ≤ st1 := by omega
  refine ⟨?_, ?_, ?_, ?_, ?_, ?_, ?_, ?_, ?_⟩ <;>
    simp [fetchWrapper, send, h1, h3, h4, h5]

/-- C9, witness: statuses 404 and 503 and a concrete rejection. -/
theorem fetch_wrapper_emission_witness :
    (fetchWrapper "http://site" "u" "GET" (.response 404 (some "nf"))).sent.map
      SendPayload.type = ["http.error"] ∧
    (fetchWrapper "http://site" "u" "GET" (.response 404 (some "nf"))).sent.map
      SendPayload.severity = ["error"] ∧
    (fetchWrapper "http://site" "u" "GET" (.response 404 (some "nf"))).result =
      Except.ok 404 ∧
    (fetchWrapper "http://site" "u" "GET" (.response 503 none)).sent.map
      SendPayload.type = ["http.error"] ∧
    (fetchWrapper "http://site" "u" "GET" (.response 503 none)).sent.map
      SendPayload.severity = ["critical"] ∧
    (fetchWrapper "http://site" "u" "GET" (.response 503 none)).result = Except.ok 503 ∧
    (fetchWrapper "http://site" "u" "GET" (.rejected "boom")).sent.map
      SendPayload.type = ["http.network"] ∧
    (fetchWrapper "http://site" "u" "GET" (.rejected "boom")).sent.map
      SendPayload.severity = ["critical"] ∧
    (fetchWrapper "http://site" "u" "GET" (.rejected "boom")).result =
      Except.error "boom" :=
  fetch_wrapper_emission "http://site" "u" "GET" "boom" 404 503 (some "nf") none
    (by decide) (by decide) (by decide)

/-- C10: `removeFromWhitelist` removes the domain from BOTH the permanent
and the session whitelist (regardless of where it was added), and leaves
every other entry of both lists untouched. -/
theorem removeFromWhitelist_both_lists (d e : String) (w : Whitelists) (h : e ≠ d) :
    d ∉ (removeFromWhitelist d w).permanent ∧
    d ∉ (removeFromWhitelist d w).session ∧
    ((e ∈ (removeFromWhitelist d w).permanent) ↔ e ∈ w.permanent) ∧
    ((e ∈ (removeFromWhitelist d w).session) ↔ e ∈ w.session) := by
  simp [removeFromWhitelist, List.mem_filter, h]

/-- C10, witness: a domain sitting in both lists is removed from both,
the other entries stay. -/
theorem removeFromWhitelist_both_lists_witness :
    "example.com" ∉ (removeFromWhitelist "example.com"
      ⟨["a", "example.com"], ["example.com", "b"]⟩).permanent ∧
    "example.com" ∉ (removeFromWhitelist "example.com"
      ⟨["a", "example.com"], ["example.com", "b"]⟩).session ∧
    (("a" ∈ (removeFromWhitelist "example.com"
      ⟨["a", "example.com"], ["example.com", "b"]⟩).permanent) ↔
      "a" ∈ (⟨["a", "example.com"], ["example.com", "b"]⟩ : Whitelists).permanent) ∧
    (("a" ∈ (removeFromWhitelist "example.com"
      ⟨["a", "example.com"], ["example.com", "b"]⟩).session) ↔
      "a" ∈ (⟨["a", "example.com"], ["example.com", "b"]⟩ : Whitelists).session) :=
  removeFromWhitelist_both_lists "example.com" "a"
    ⟨["a", "example.com"], ["example.com", "b"]⟩ (by decide)

end FixOnce
